import Mathlib

/-!
# Verification of the GTFS frequency reconciliation core

A shallow embedding of `process_frequencies.py` (the merge/diff operators and
the per-route reconciliation worklist loop), together with theorems settling
the specification claims.

The program operates on shapely geometries in a projected plane.  All
geometries the core manipulates are connected polylines (the data model's
`AnnotatedPolyline.geometry`), the corridors obtained by buffering them, and
the line-typed results of intersection/difference between those.  The
embedding models the geometries on a common axis: a polyline is a closed
interval `[lo, hi]` on the axis, the buffer of radius `d` around it is the
corridor whose trace on the axis is `[lo - d, hi + d]` (the round buffer
cap extends `d` beyond each endpoint), and
intersection/difference/length/linemerge are the induced exact interval
operations.  Coordinates are integers: every operation the program performs
(`min`, `max`, shifting by the integer tolerance `bTol`) preserves
integrality, and the specification's concrete scenarios are all
integer-coordinate collinear segments on the x-axis.
-/

/-- Geometry values, tagged the way shapely tags them (`.type`).
`point x` is a point on the axis; `lineString lo hi` a connected segment;
`multiLineString` a disconnected collection of segments;
`collection pts segs` a `GeometryCollection` (empty overlay results in the
GEOS of this program's era are `GEOMETRYCOLLECTION EMPTY`, i.e.
`collection [] []`); `polygon lo hi` the buffer corridor of one segment with
axis trace `[lo, hi]`; `multiPolygon` the buffer of a multi-part line. -/
inductive Geom where
  | point (x : ℤ)
  | lineString (lo hi : ℤ)
  | multiLineString (segs : List (ℤ × ℤ))
  | collection (pts : List ℤ) (segs : List (ℤ × ℤ))
  | polygon (lo hi : ℤ)
  | multiPolygon (parts : List (ℤ × ℤ))
deriving DecidableEq, Repr

/-- shapely's `.type` attribute. -/
def Geom.geomType : Geom → String
  | .point _ => "Point"
  | .lineString _ _ => "LineString"
  | .multiLineString _ => "MultiLineString"
  | .collection _ _ => "GeometryCollection"
  | .polygon _ _ => "Polygon"
  | .multiPolygon _ => "MultiPolygon"

/-- shapely's `.length`: total length of the line parts.  (The perimeter of a
buffer polygon involves the circular caps and is irrational; the embedded
code paths never take the length of a polygon-typed value, so it is set
to 0 here.) -/
def Geom.lengthG : Geom → ℤ
  | .point _ => 0
  | .lineString lo hi => hi - lo
  | .multiLineString segs => (segs.map (fun s => s.2 - s.1)).sum
  | .collection _ segs => (segs.map (fun s => s.2 - s.1)).sum
  | .polygon _ _ => 0
  | .multiPolygon _ => 0

/-- Python iteration over a geometry (`for g in geom` / `list(geom)`):
yields the members of a multi-part geometry.  shapely raises `TypeError`
for the non-iterable kinds (`Point`, `LineString`, `Polygon`); the embedded
code only iterates values it has checked to be multi-part/collection typed,
so those cases are unreachable and yield `[]` here. -/
def Geom.members : Geom → List Geom
  | .multiLineString segs => segs.map (fun s => Geom.lineString s.1 s.2)
  | .collection pts segs =>
      pts.map Geom.point ++ segs.map (fun s => Geom.lineString s.1 s.2)
  | .multiPolygon parts => parts.map (fun s => Geom.polygon s.1 s.2)
  | _ => []

/-- The trace of a geometry on the axis, as a list of closed intervals
(points are degenerate intervals). -/
def Geom.traceIv : Geom → List (ℤ × ℤ)
  | .point x => [(x, x)]
  | .lineString lo hi => [(lo, hi)]
  | .multiLineString segs => segs
  | .collection pts segs => pts.map (fun x => (x, x)) ++ segs
  | .polygon lo hi => [(lo, hi)]
  | .multiPolygon parts => parts

/-- Insert an interval into a list sorted by left endpoint. -/
def insIv (p : ℤ × ℤ) : List (ℤ × ℤ) → List (ℤ × ℤ)
  | [] => [p]
  | q :: rest => if p.1 ≤ q.1 then p :: q :: rest else q :: insIv p rest

/-- Insertion sort of intervals by left endpoint. -/
def sortIv : List (ℤ × ℤ) → List (ℤ × ℤ)
  | [] => []
  | p :: rest => insIv p (sortIv rest)

/-- Union a current interval with the following intervals of a sorted list
as long as they overlap or touch it; emit it when the next interval is
separated. -/
def unionTouchingAux (cur : ℤ × ℤ) : List (ℤ × ℤ) → List (ℤ × ℤ)
  | [] => [cur]
  | q :: rest =>
      if q.1 ≤ cur.2 then unionTouchingAux (cur.1, max cur.2 q.2) rest
      else cur :: unionTouchingAux q rest

/-- Union adjacent intervals of a sorted list when they overlap or touch
(used to normalise a geometry's trace into disjoint intervals before a
boolean operation). -/
def unionTouching : List (ℤ × ℤ) → List (ℤ × ℤ)
  | [] => []
  | p :: rest => unionTouchingAux p rest

/-- Normalise a trace into sorted pairwise-disjoint intervals. -/
def normUnion (l : List (ℤ × ℤ)) : List (ℤ × ℤ) := unionTouching (sortIv l)

/-- Join a current segment with the following segments of a sorted list as
long as each starts exactly at its end; emit it otherwise (shapely
`linemerge` joins lines exactly at shared endpoints; it does not union
overlapping lines). -/
def mergeTouchingAux (cur : ℤ × ℤ) : List (ℤ × ℤ) → List (ℤ × ℤ)
  | [] => [cur]
  | q :: rest =>
      if cur.2 = q.1 then mergeTouchingAux (cur.1, q.2) rest
      else cur :: mergeTouchingAux q rest

/-- Join sorted line segments that share an endpoint into maximal connected
lines. -/
def mergeTouching : List (ℤ × ℤ) → List (ℤ × ℤ)
  | [] => []
  | p :: rest => mergeTouchingAux p rest

/-- Package a list of disjoint interval pieces as the geometry GEOS would
return for an overlay result: empty, a single point, a single line, a
multi-line, or a mixed collection. -/
def packPieces (ps : List (ℤ × ℤ)) : Geom :=
  let pts := (ps.filter (fun p => p.1 = p.2)).map Prod.fst
  let segs := ps.filter (fun p => p.1 < p.2)
  match pts, segs with
  | [], [] => .collection [] []
  | [x], [] => .point x
  | [], [s] => .lineString s.1 s.2
  | [], ss => .multiLineString ss
  | xs, ss => .collection xs ss

/-- Intersection of the segment `[x1, x2]` with a list of disjoint
intervals. -/
def segInterList (x1 x2 : ℤ) (ivs : List (ℤ × ℤ)) : List (ℤ × ℤ) :=
  ivs.filterMap (fun iv =>
    let a := max x1 iv.1
    let b := min x2 iv.2
    if a ≤ b then some (a, b) else none)

/-- Subtract one closed interval from one piece; GEOS keeps the closed
remainder pieces (a remainder of zero length is dropped, not returned as a
point). -/
def segDiff1 (p iv : ℤ × ℤ) : List (ℤ × ℤ) :=
  (if p.1 < iv.1 then [(p.1, min p.2 iv.1)] else []) ++
  (if iv.2 < p.2 then [(max p.1 iv.2, p.2)] else [])

/-- Subtract a list of disjoint intervals from a list of pieces. -/
def segDiffList (ps ivs : List (ℤ × ℤ)) : List (ℤ × ℤ) :=
  ivs.foldl (fun acc iv => acc.flatMap (fun p => segDiff1 p iv)) ps

/-- shapely `geom1.intersection(geom2)`.  The program only intersects a
connected polyline with a buffer corridor (or another line); the data model
guarantees the first operand is a connected line, so the other first-operand
kinds are never formed by the embedded program. -/
def interG : Geom → Geom → Geom
  | .lineString x1 x2, g2 => packPieces (segInterList x1 x2 (normUnion g2.traceIv))
  | _, _ => .collection [] []

/-- shapely `geom1.difference(geom2)`, under the same data-model guarantee
on the first operand. -/
def diffG : Geom → Geom → Geom
  | .lineString x1 x2, g2 => packPieces (segDiffList [(x1, x2)] (normUnion g2.traceIv))
  | _, _ => .collection [] []

/-- shapely `geom.buffer(d)`: the corridor of radius `d`; with the default
round caps its trace on the axis extends `d` beyond each endpoint. -/
def bufferG (g : Geom) (d : ℤ) : Geom :=
  match g with
  | .point x => .polygon (x - d) (x + d)
  | .lineString lo hi => .polygon (lo - d) (hi + d)
  | .multiLineString segs => .multiPolygon (segs.map (fun s => (s.1 - d, s.2 + d)))
  | .collection pts segs =>
      .multiPolygon (pts.map (fun x => (x - d, x + d)) ++
        segs.map (fun s => (s.1 - d, s.2 + d)))
  | .polygon lo hi => .polygon (lo - d) (hi + d)
  | .multiPolygon parts => .multiPolygon (parts.map (fun s => (s.1 - d, s.2 + d)))

/-- shapely `linemerge` applied to a list of line geometries: joins lines
sharing endpoints into maximal connected lines and returns a `LineString`
or `MultiLineString`. -/
def linemergeList (gs : List Geom) : Geom :=
  packPieces (mergeTouching (sortIv (gs.flatMap Geom.traceIv)))

/-- shapely `linemerge` applied to a (multi-)geometry. -/
def linemergeG (g : Geom) : Geom := linemergeList g.members

/-- `TOL = 5` (minimum retained segment length), from the source. -/
def TOL : ℤ := 5

/-- `bTol = 1` (intersection buffer radius), from the source. -/
def bTol : ℤ := 1

/-- The `AnnotatedPolyline` of the data model: the source's
`dict(line=…, count=…)`. -/
structure AnnotatedPolyline where
  line : Geom
  count : ℤ
deriving DecidableEq, Repr

/-- The comparison `g1diff > TOL` on source line 45 compares a shapely
geometry object with a number.  shapely (1.x) geometries define no order,
so CPython 2 falls back to its default mixed-type comparison, under which
any number is smaller than any non-numeric object; the comparison is
therefore always true, whatever the geometry and the tolerance. -/
def py2GtNum (_g : Geom) (_t : ℤ) : Bool := true

/-- The classification of the difference result, source lines 45-54 of
`diff_layers`. -/
def diffClassify (g1diff : Geom) (cnt : ℤ) : List AnnotatedPolyline :=
  if g1diff.geomType = "LineString" ∧ py2GtNum g1diff TOL then
    [⟨g1diff, cnt⟩]
  else if g1diff.geomType = "MultiLineString" then
    let m := linemergeG g1diff
    let ms := if m.geomType = "LineString" then [m] else m.members
    (ms.filter (fun g => TOL < g.lengthG)).map (fun g => ⟨g, cnt⟩)
  else []

/-- `diff_layers(geom1, geom2)`: the difference of `geom1['line']` from
`geom2['line']`, classified and annotated with `geom1['count']`. -/
def diff_layers (geom1 geom2 : AnnotatedPolyline) : List AnnotatedPolyline :=
  diffClassify (diffG geom1.line geom2.line) geom1.count

/-- The surviving tolerance-filtered intersection of `merge_layers`,
source lines 59-77: intersect `geom1['line']` with the `bTol`-buffer of
`geom2['line']`; keep a single line if longer than `TOL`; drop a point;
filter a collection to non-point members longer than `TOL`, re-merge them,
and re-filter by length. -/
def survivingIntersection (geom1 geom2 : AnnotatedPolyline) : List Geom :=
  let g2l := bufferG geom2.line bTol
  let ig := interG geom1.line g2l
  if ig.geomType = "LineString" then
    if TOL < ig.lengthG then [ig] else []
  else if ig.geomType = "Point" then []
  else
    let i0 := ig.members.filter (fun g => g.geomType ≠ "Point" ∧ TOL < g.lengthG)
    if i0.isEmpty then i0
    else
      let m := linemergeList i0
      let il := if m.geomType = "LineString" then [m] else m.members
      il.filter (fun g => TOL < g.lengthG)

/-- `merge_layers(geom1, geom2)`, source lines 57-87: returns the pair of
the overlap pieces (each annotated with the summed count) and the residual
pieces (the difference of each input from the buffer of the other, the two
auxiliary buffered shapes carrying `geom2['count']`). -/
def merge_layers (geom1 geom2 : AnnotatedPolyline) :
    List AnnotatedPolyline × List AnnotatedPolyline :=
  let intersect := survivingIntersection geom1 geom2
  if intersect.isEmpty then ([], [geom1, geom2])
  else
    let cnt := geom1.count + geom2.count
    let ovl := intersect.map (fun g => (⟨g, cnt⟩ : AnnotatedPolyline))
    let sg1 : AnnotatedPolyline := ⟨bufferG geom1.line bTol, geom2.count⟩
    let sg2 : AnnotatedPolyline := ⟨bufferG geom2.line bTol, geom2.count⟩
    (ovl, diff_layers geom1 sg2 ++ diff_layers geom2 sg1)

/-- The inner `for shape in seed_list[1:]` scan of the worklist loop,
source lines 196-209: returns the `foundMatch` flag and the `merged_list`.
Before a match each scanned item is appended unchanged; at the first item
whose merge with the candidate has a non-empty overlap, the overlap and
residual outputs are appended instead and every later item is appended
unchanged. -/
def scanSeed (candidate : AnnotatedPolyline) :
    List AnnotatedPolyline → Bool × List AnnotatedPolyline
  | [] => (false, [])
  | shape :: rest =>
      let mu := merge_layers candidate shape
      if mu.1.isEmpty then
        let fm := scanSeed candidate rest
        (fm.1, shape :: fm.2)
      else
        (true, (mu.1 ++ mu.2) ++ rest)

/-- One iteration of the `while seed_list` body, source lines 195-212:
probe the head; on a match the accumulator is untouched and the merged list
becomes the worklist; on no match the probe joins the accumulator. -/
def loopIter (seed unique : List AnnotatedPolyline) :
    List AnnotatedPolyline × List AnnotatedPolyline :=
  match seed with
  | [] => ([], unique)
  | candidate :: rest =>
      let fm := scanSeed candidate rest
      if fm.1 then (fm.2, unique) else (fm.2, unique ++ [candidate])

/-- The `while seed_list` loop with explicit fuel (the Python loop has no
bound; termination is proved separately).  Returns the accumulated
`unique_list` when the worklist empties within `fuel` iterations. -/
def reconcileLoop : ℕ → List AnnotatedPolyline → List AnnotatedPolyline →
    Option (List AnnotatedPolyline)
  | 0, seed, unique => if seed.isEmpty then some unique else none
  | n + 1, seed, unique =>
      if seed.isEmpty then some unique
      else
        let su := loopIter seed unique
        reconcileLoop n su.1 su.2

/-- First-occurrence deduplication, carrying the keys already seen. -/
def dedupKeysAux (seen : List ℤ) : List ℤ → List ℤ
  | [] => []
  | c :: rest =>
      if c ∈ seen then dedupKeysAux seen rest
      else c :: dedupKeysAux (seen ++ [c]) rest

/-- First-occurrence deduplication of the count keys (the iteration order
of the Python dict is unspecified; downstream statements that depend on
order are made up to permutation). -/
def dedupKeys (l : List ℤ) : List ℤ := dedupKeysAux [] l

/-- The post-processing of the accumulator, source lines 214-225: group by
count, and emit one entry per count whose geometry is the `linemerge` of
the group's geometries. -/
def postProcess (uniques : List AnnotatedPolyline) : List AnnotatedPolyline :=
  let keys := dedupKeys (uniques.map (fun s => s.count))
  keys.map (fun c =>
    ⟨linemergeList ((uniques.filter (fun s => s.count = c)).map (fun s => s.line)), c⟩)

/-- The reconciliation driver for one route: the worklist loop followed by
the post-processing. -/
def reconcile (fuel : ℕ) (candidates : List AnnotatedPolyline) :
    Option (List AnnotatedPolyline) :=
  (reconcileLoop fuel candidates []).map postProcess

/-! ## Helper lemmas -/

/-- Every piece emitted by the diff classification carries the first
argument's count. -/
lemma diffClassify_count (g : Geom) (cnt : ℤ) :
    ∀ p ∈ diffClassify g cnt, p.count = cnt := by
  intro p hp
  unfold diffClassify at hp
  split_ifs at hp with h1 h2
  · simp at hp; rw [hp]
  · simp at hp
    obtain ⟨g', _, rfl⟩ := hp
    rfl
  · simp at hp

/-- Membership in the deduplication accumulator loop. -/
lemma mem_dedupKeysAux :
    ∀ (l seen : List ℤ) (c : ℤ), c ∈ dedupKeysAux seen l ↔ (c ∈ l ∧ c ∉ seen) := by
  intro l
  induction l with
  | nil => intro seen c; simp [dedupKeysAux]
  | cons d rest ih =>
      intro seen c
      by_cases hd : d ∈ seen
      · simp only [dedupKeysAux, if_pos hd, ih, List.mem_cons]
        constructor
        · rintro ⟨h1, h2⟩; exact ⟨Or.inr h1, h2⟩
        · rintro ⟨h1, h2⟩
          rcases h1 with rfl | h1'
          · exact absurd hd h2
          · exact ⟨h1', h2⟩
      · simp only [dedupKeysAux, if_neg hd, List.mem_cons, ih, List.mem_append,
          List.mem_singleton]
        by_cases hc : c = d
        · subst hc; tauto
        · tauto

/-- `dedupKeys` keeps exactly the keys of the input. -/
lemma mem_dedupKeys (l : List ℤ) (c : ℤ) : c ∈ dedupKeys l ↔ c ∈ l := by
  simp [dedupKeys, mem_dedupKeysAux]

/-- A scan in which no item matches the probe returns the remaining items
unchanged with the flag down. -/
lemma scanSeed_all_nomatch (c : AnnotatedPolyline) :
    ∀ rest : List AnnotatedPolyline,
      (∀ x ∈ rest, (merge_layers c x).1 = []) → scanSeed c rest = (false, rest) := by
  intro rest
  induction rest with
  | nil => intro _; rfl
  | cons s r ih =>
      intro h
      have hs : (merge_layers c s).1 = [] := h s (List.mem_cons_self s r)
      rw [scanSeed]
      simp only [hs, List.isEmpty_nil, if_pos]
      rw [ih (fun x hx => h x (List.mem_cons_of_mem s hx))]

/-- A scan whose first matching item is `s` returns the flag up and the
worklist in which the match's overlap and residual replace `c` and `s`,
with every unscanned item appended unchanged. -/
lemma scanSeed_first_match (c s : AnnotatedPolyline)
    (post : List AnnotatedPolyline) (hs : (merge_layers c s).1 ≠ []) :
    ∀ pre : List AnnotatedPolyline,
      (∀ x ∈ pre, (merge_layers c x).1 = []) →
      scanSeed c (pre ++ s :: post) =
        (true, pre ++ ((merge_layers c s).1 ++ (merge_layers c s).2) ++ post) := by
  intro pre
  induction pre with
  | nil =>
      intro _
      rw [List.nil_append, scanSeed]
      have : (merge_layers c s).1.isEmpty = false := by
        cases hml : (merge_layers c s).1 with
        | nil => exact absurd hml hs
        | cons a t => rfl
      simp [this]
  | cons x pre' ih =>
      intro h
      have hx : (merge_layers c x).1 = [] := h x (List.mem_cons_self x pre')
      rw [List.cons_append, scanSeed]
      simp only [hx, List.isEmpty_nil, if_pos]
      rw [ih (fun y hy => h y (List.mem_cons_of_mem x hy))]
      simp

/-! ## Claim theorems -/

/-- C1.  One iteration of the reconciliation worklist loop: the head is the
probe; the remaining items are scanned in order; at the first item whose
merge with the probe has a non-empty overlap, probe and item are replaced
in the next worklist by the merge's overlap and residual outputs, the
subsequently-unscanned items are appended unchanged, and no further item
alters the result; if no item overlaps the probe, the probe moves to the
accumulator of confirmed-unique pieces and the remaining items become the
new worklist. -/
theorem worklist_round_spec (c s : AnnotatedPolyline)
    (pre post rest unique : List AnnotatedPolyline)
    (hpre : ∀ x ∈ pre, (merge_layers c x).1 = [])
    (hs : (merge_layers c s).1 ≠ [])
    (hrest : ∀ x ∈ rest, (merge_layers c x).1 = []) :
    loopIter (c :: (pre ++ s :: post)) unique =
      (pre ++ ((merge_layers c s).1 ++ (merge_layers c s).2) ++ post, unique) ∧
    loopIter (c :: rest) unique = (rest, unique ++ [c]) := by
  constructor
  · have h1 := scanSeed_first_match c s post hs pre hpre
    simp [loopIter, h1]
  · have h2 := scanSeed_all_nomatch c rest hrest
    simp [loopIter, h2]

/-- Witness for C1 at concrete inputs: probe `[0,10]` count 2, first match
`[5,15]` count 4, one non-matching far segment scanned before it. -/
theorem worklist_round_spec_witness :
    (∀ x ∈ [(⟨Geom.lineString 100 110, 1⟩ : AnnotatedPolyline)],
        (merge_layers ⟨Geom.lineString 0 10, 2⟩ x).1 = []) ∧
    (merge_layers ⟨Geom.lineString 0 10, 2⟩ ⟨Geom.lineString 5 15, 4⟩).1 ≠ [] ∧
    (loopIter (⟨Geom.lineString 0 10, 2⟩ ::
        ([⟨Geom.lineString 100 110, 1⟩] ++ ⟨Geom.lineString 5 15, 4⟩ ::
          [⟨Geom.lineString 200 210, 3⟩])) [] =
      ([⟨Geom.lineString 100 110, 1⟩] ++
        ((merge_layers ⟨Geom.lineString 0 10, 2⟩ ⟨Geom.lineString 5 15, 4⟩).1 ++
         (merge_layers ⟨Geom.lineString 0 10, 2⟩ ⟨Geom.lineString 5 15, 4⟩).2) ++
        [⟨Geom.lineString 200 210, 3⟩], []) ∧
     loopIter (⟨Geom.lineString 0 10, 2⟩ :: [⟨Geom.lineString 100 110, 1⟩]) [] =
       ([⟨Geom.lineString 100 110, 1⟩], [] ++ [⟨Geom.lineString 0 10, 2⟩])) :=
  ⟨by decide, by decide,
    worklist_round_spec ⟨Geom.lineString 0 10, 2⟩ ⟨Geom.lineString 5 15, 4⟩
      [⟨Geom.lineString 100 110, 1⟩] [⟨Geom.lineString 200 210, 3⟩]
      [⟨Geom.lineString 100 110, 1⟩] [] (by decide) (by decide) (by decide)⟩

/-- C2.  When an intersection survives, every overlap piece returned by
`merge_layers` carries the summed count `a.count + b.count`, and the
residual is `diff_layers(a, b-buffered)` followed by
`diff_layers(b, a-buffered)`, both auxiliary buffered shapes carrying
`b.count` as their probe count. -/
theorem merge_overlap_and_residual (a b : AnnotatedPolyline)
    (h : (merge_layers a b).1 ≠ []) :
    (∀ p ∈ (merge_layers a b).1, p.count = a.count + b.count) ∧
    (merge_layers a b).2 =
      diff_layers a ⟨bufferG b.line bTol, b.count⟩ ++
      diff_layers b ⟨bufferG a.line bTol, b.count⟩ := by
  by_cases hs : survivingIntersection a b = []
  · exact absurd (by simp [merge_layers, hs]) h
  · have hne : (survivingIntersection a b).isEmpty = false := by
      cases hml : survivingIntersection a b with
      | nil => exact absurd hml hs
      | cons x t => rfl
    constructor
    · intro p hp
      simp only [merge_layers, hne, Bool.false_eq_true, if_false, List.mem_map] at hp
      obtain ⟨g, _, rfl⟩ := hp
      rfl
    · simp only [merge_layers, hne, Bool.false_eq_true, if_false]

/-- Witness for C2 at segments `[0,10]` count 2 and `[5,15]` count 4. -/
theorem merge_overlap_and_residual_witness :
    (merge_layers ⟨Geom.lineString 0 10, 2⟩ ⟨Geom.lineString 5 15, 4⟩).1 ≠ [] ∧
    ((∀ p ∈ (merge_layers ⟨Geom.lineString 0 10, 2⟩ ⟨Geom.lineString 5 15, 4⟩).1,
        p.count = (⟨Geom.lineString 0 10, 2⟩ : AnnotatedPolyline).count +
          (⟨Geom.lineString 5 15, 4⟩ : AnnotatedPolyline).count) ∧
     (merge_layers ⟨Geom.lineString 0 10, 2⟩ ⟨Geom.lineString 5 15, 4⟩).2 =
       diff_layers ⟨Geom.lineString 0 10, 2⟩ ⟨bufferG (Geom.lineString 5 15) bTol, 4⟩ ++
       diff_layers ⟨Geom.lineString 5 15, 4⟩ ⟨bufferG (Geom.lineString 0 10) bTol, 4⟩) :=
  ⟨by decide,
    merge_overlap_and_residual ⟨Geom.lineString 0 10, 2⟩ ⟨Geom.lineString 5 15, 4⟩
      (by decide)⟩

/-- C3.  When no intersection piece survives the tolerance filtering,
`merge_layers` returns an empty overlap together with exactly the two
inputs, unchanged, as the residual. -/
theorem merge_no_surviving_intersection (a b : AnnotatedPolyline)
    (h : survivingIntersection a b = []) :
    merge_layers a b = ([], [a, b]) := by
  simp [merge_layers, h]

/-- Witness for C3 at two far-apart segments (empty intersection). -/
theorem merge_no_surviving_intersection_witness :
    survivingIntersection ⟨Geom.lineString 0 4, 2⟩ ⟨Geom.lineString 11 15, 4⟩ = [] ∧
    merge_layers ⟨Geom.lineString 0 4, 2⟩ ⟨Geom.lineString 11 15, 4⟩ =
      ([], [⟨Geom.lineString 0 4, 2⟩, ⟨Geom.lineString 11 15, 4⟩]) :=
  ⟨by decide,
    merge_no_surviving_intersection ⟨Geom.lineString 0 4, 2⟩ ⟨Geom.lineString 11 15, 4⟩
      (by decide)⟩

/-- C4 (refuting evaluation).  The tolerance floor is violated: for
`a = [(0,0)-(10,0)]` count 2 and `b = [(0,0)-(7,0)]` count 1, the
difference is the single line `[(7,0)-(10,0)]` of length `3 ≤ TOL`, yet
`diff_layers` emits it.  Source line 45 compares the geometry object
itself, not its length, against `TOL` — under Python 2's mixed-type
comparison that test is always true, so the single-line branch never
drops sub-tolerance pieces. -/
theorem diff_breaks_tolerance_floor :
    diff_layers ⟨Geom.lineString 0 10, 2⟩ ⟨Geom.lineString 0 7, 1⟩ =
      [⟨Geom.lineString 7 10, 2⟩] ∧
    (Geom.lineString 7 10).lengthG ≤ TOL := by decide

/-- C5 (refuting evaluation).  For `a = [(0,0)-(10,0)]` count 3 and
`b = [(0,0)-(6,0)]` count 1 the difference is a single connected line of
length `4`, which does not exceed `TOL = 5`; the claim requires the empty
sequence, but `diff_layers` returns the piece (source line 45's
`g1diff > TOL` compares the geometry object, not its length, and is
always true in Python 2). -/
theorem diff_single_line_subtolerance_kept :
    diff_layers ⟨Geom.lineString 0 10, 3⟩ ⟨Geom.lineString 0 6, 1⟩ =
      [⟨Geom.lineString 6 10, 3⟩] ∧
    ¬ (TOL < (Geom.lineString 6 10).lengthG) := by decide

/-- C6 (counterexample).  Two confirmed-unique pieces with the same count
7 on disconnected segments `[0,4]` and `[10,14]`: the claim expects one
`AnnotatedPolyline` per resulting connected piece (two outputs), but the
post-processing emits a single entry for the whole count group, whose
geometry is the two-part `MultiLineString`. -/
theorem postProcess_not_per_connected_piece :
    postProcess [⟨Geom.lineString 0 4, 7⟩, ⟨Geom.lineString 10 14, 7⟩] =
      [⟨Geom.multiLineString [(0, 4), (10, 14)], 7⟩] ∧
    (postProcess [⟨Geom.lineString 0 4, 7⟩, ⟨Geom.lineString 10 14, 7⟩]).length ≠ 2 := by
  decide

/-- C6 (amended).  After the worklist loop, the driver groups the
accumulator by count and emits exactly one `AnnotatedPolyline` per count
key, whose geometry is the line-merge of all geometries of that count
group (a single connected line when the group connects, otherwise a
multi-part line); it does not split the merge result into one output per
connected piece. -/
theorem postProcess_one_entry_per_count_group (L : List AnnotatedPolyline) :
    (∀ p ∈ postProcess L,
        p.line = linemergeList ((L.filter (fun s => s.count = p.count)).map
          (fun s => s.line)) ∧
        p.count ∈ L.map (fun s => s.count)) ∧
    (∀ c ∈ L.map (fun s => s.count), ∃ p ∈ postProcess L, p.count = c) := by
  constructor
  · intro p hp
    simp only [postProcess, List.mem_map] at hp
    obtain ⟨c, hc, rfl⟩ := hp
    exact ⟨rfl, (mem_dedupKeys _ _).mp hc⟩
  · intro c hc
    refine ⟨⟨linemergeList ((L.filter (fun s => s.count = c)).map (fun s => s.line)), c⟩,
      ?_, rfl⟩
    simp only [postProcess, List.mem_map]
    exact ⟨c, (mem_dedupKeys _ _).mpr hc, rfl⟩

/-- C8 (counterexample).  For candidates `A = [(0,0)-(10,0)]` count 2 and
`B = [(5,0)-(15,0)]` count 4 with `TOL = 5`, `bTol = 1`, none of the three
pieces the claim expects — `[(0,0)-(5,0)]` count 2, `[(5,0)-(10,0)]`
count 6, `[(10,0)-(15,0)]` count 4 — occurs in the reconciliation output
(whatever the output order). -/
theorem scenarioB_expected_pieces_absent :
    ((⟨Geom.lineString 0 5, 2⟩ : AnnotatedPolyline) ∉
      (reconcile 10 [⟨Geom.lineString 0 10, 2⟩, ⟨Geom.lineString 5 15, 4⟩]).getD []) ∧
    ((⟨Geom.lineString 5 10, 6⟩ : AnnotatedPolyline) ∉
      (reconcile 10 [⟨Geom.lineString 0 10, 2⟩, ⟨Geom.lineString 5 15, 4⟩]).getD []) ∧
    ((⟨Geom.lineString 10 15, 4⟩ : AnnotatedPolyline) ∉
      (reconcile 10 [⟨Geom.lineString 0 10, 2⟩, ⟨Geom.lineString 5 15, 4⟩]).getD []) := by
  decide

/-- C8 (amended).  On Scenario B the driver actually produces the three
pieces `[(4,0)-(10,0)]` count 6, `[(0,0)-(4,0)]` count 2 and
`[(11,0)-(15,0)]` count 4: the overlap is taken against the `bTol`-buffer
of `B` (whose round cap reaches back to `x = 4`), the residuals are
shortened by the buffer on each side (the stretch `(10,0)-(11,0)` of `B`
falls inside `A`'s buffer and is lost), and both length-4 residuals are
kept despite `TOL = 5` because of the line-45 comparison slip. -/
theorem scenarioB_actual_output :
    reconcile 10 [⟨Geom.lineString 0 10, 2⟩, ⟨Geom.lineString 5 15, 4⟩] =
      some [⟨Geom.lineString 4 10, 6⟩, ⟨Geom.lineString 0 4, 2⟩,
            ⟨Geom.lineString 11 15, 4⟩] := by decide

/-- C9 (counterexample).  An area/polygon result — a geometry type the
classification of `diff_layers` does not recognize — is silently
discarded: the classification returns the ordinary empty sequence,
indistinguishable from a degenerate (empty) difference, and the operator's
return type carries no error channel at all, so no contract violation is
signalled to the caller. -/
theorem diffClassify_polygon_silently_discarded :
    diffClassify (Geom.polygon 0 9) 3 = [] ∧
    diffClassify (Geom.collection [] []) 3 = [] := by decide

/-- C9 (amended).  When the difference yields a geometry type the
classification logic does not recognize (anything but `LineString` and
`MultiLineString`, e.g. an area/polygon result), `diff_layers`'s
classification silently returns the empty sequence — exactly what it
returns for a legitimately degenerate result — rather than signalling a
contract violation. -/
theorem diffClassify_unrecognized_is_empty (lo hi : ℤ) (cnt : ℤ) :
    diffClassify (Geom.polygon lo hi) cnt = [] := by
  rfl

/-- C10.  The count carried by the subtracted argument of `diff_layers`
never influences the result: replacing `b` by any `b'` with the same
geometry leaves the output unchanged, and every output piece inherits
`a.count`. -/
theorem diff_ignores_subtrahend_count (a b b' : AnnotatedPolyline)
    (h : b.line = b'.line) :
    diff_layers a b = diff_layers a b' ∧
    ∀ p ∈ diff_layers a b, p.count = a.count := by
  constructor
  · show diffClassify (diffG a.line b.line) a.count =
      diffClassify (diffG a.line b'.line) a.count
    rw [h]
  · exact diffClassify_count _ _

/-- Witness for C10: `b` and `b'` share the geometry `[3,20]` but carry
counts 5 and 99. -/
theorem diff_ignores_subtrahend_count_witness :
    (⟨Geom.lineString 3 20, 5⟩ : AnnotatedPolyline).line =
      (⟨Geom.lineString 3 20, 99⟩ : AnnotatedPolyline).line ∧
    (diff_layers ⟨Geom.lineString 0 10, 2⟩ ⟨Geom.lineString 3 20, 5⟩ =
       diff_layers ⟨Geom.lineString 0 10, 2⟩ ⟨Geom.lineString 3 20, 99⟩ ∧
     ∀ p ∈ diff_layers ⟨Geom.lineString 0 10, 2⟩ ⟨Geom.lineString 3 20, 5⟩,
       p.count = (⟨Geom.lineString 0 10, 2⟩ : AnnotatedPolyline).count) :=
  ⟨rfl, diff_ignores_subtrahend_count ⟨Geom.lineString 0 10, 2⟩
    ⟨Geom.lineString 3 20, 5⟩ ⟨Geom.lineString 3 20, 99⟩ rfl⟩

/-! ## Termination of the worklist loop

The loop is proved terminating on well-formed worklists (every item a
positive-length connected segment, which initial candidates are and which
the merge outputs preserve) by a measure combining total geometric length
and list length: a no-match round drops one item, and a successful merge
shortens the total retained length by at least 3 = `TOL - 2 * bTol` while
adding at most 3 items. -/

/-- A well-formed worklist item: a connected segment of positive length
(the program's candidates are non-degenerate polylines). -/
def isSegAP (p : AnnotatedPolyline) : Bool :=
  match p.line with
  | .lineString a b => decide (a < b)
  | _ => false

/-- The geometric length of a worklist item. -/
def lenAP (p : AnnotatedPolyline) : ℤ := p.line.lengthG

/-- Total geometric length of a worklist. -/
def totalLen (L : List AnnotatedPolyline) : ℤ := (L.map lenAP).sum

/-- The loop measure: twice the total retained length plus the worklist
size. -/
def measureL (L : List AnnotatedPolyline) : ℕ :=
  2 * (totalLen L).toNat + L.length

lemma isSegAP_iff (p : AnnotatedPolyline) :
    isSegAP p = true ↔ ∃ a b : ℤ, a < b ∧ p.line = Geom.lineString a b := by
  obtain ⟨g, c⟩ := p
  cases g <;> simp [isSegAP]

lemma lenAP_pos (p : AnnotatedPolyline) (h : isSegAP p = true) : 0 < lenAP p := by
  obtain ⟨a, b, hab, hline⟩ := (isSegAP_iff p).mp h
  simp [lenAP, hline, Geom.lengthG]
  omega

lemma totalLen_nonneg (L : List AnnotatedPolyline)
    (h : ∀ p ∈ L, isSegAP p = true) : 0 ≤ totalLen L := by
  induction L with
  | nil => simp [totalLen]
  | cons p rest ih =>
      have h1 := lenAP_pos p (h p (List.mem_cons_self p rest))
      have h2 := ih (fun q hq => h q (List.mem_cons_of_mem p hq))
      simp only [totalLen, List.map_cons, List.sum_cons] at h2 ⊢
      omega

lemma totalLen_cons (p : AnnotatedPolyline) (L : List AnnotatedPolyline) :
    totalLen (p :: L) = lenAP p + totalLen L := by
  simp [totalLen]

lemma totalLen_append (L1 L2 : List AnnotatedPolyline) :
    totalLen (L1 ++ L2) = totalLen L1 + totalLen L2 := by
  simp [totalLen]

lemma packPieces_nil : packPieces [] = Geom.collection [] [] := rfl

lemma packPieces_single (a b : ℤ) :
    packPieces [(a, b)] =
      if a = b then Geom.point a
      else if a < b then Geom.lineString a b
      else Geom.collection [] [] := by
  by_cases h1 : a = b
  · subst h1
    simp [packPieces, List.filter]
  · by_cases h2 : a < b
    · simp [packPieces, List.filter, h1, h2]
    · simp [packPieces, List.filter, h1, h2]

lemma packPieces_two_pos (a b c d : ℤ) (h1 : a < b) (h2 : c < d) :
    packPieces [(a, b), (c, d)] = Geom.multiLineString [(a, b), (c, d)] := by
  have n1 : ¬ a = b := by omega
  have n2 : ¬ c = d := by omega
  simp [packPieces, List.filter, h1, h2, n1, n2]

lemma interG_seg_corridor (x1 x2 lo hi : ℤ) :
    interG (.lineString x1 x2) (.polygon lo hi) =
      if max x1 lo < min x2 hi then Geom.lineString (max x1 lo) (min x2 hi)
      else if max x1 lo = min x2 hi then Geom.point (max x1 lo)
      else Geom.collection [] [] := by
  have hn : normUnion [(lo, hi)] = [(lo, hi)] := rfl
  simp only [interG, Geom.traceIv, hn, segInterList, List.filterMap_cons,
    List.filterMap_nil]
  by_cases h1 : max x1 lo ≤ min x2 hi
  · simp only [h1, if_pos]
    rw [packPieces_single]
    rcases lt_or_eq_of_le h1 with h2 | h2
    · have n1 : ¬ max x1 lo = min x2 hi := by omega
      simp [n1, h2]
    · simp [h2]
  · have n1 : ¬ max x1 lo < min x2 hi := by omega
    have n2 : ¬ max x1 lo = min x2 hi := by omega
    simp [h1, n1, n2, packPieces_nil]

lemma diffG_seg_corridor (x1 x2 lo hi : ℤ) :
    diffG (.lineString x1 x2) (.polygon lo hi) =
      packPieces ((if x1 < lo then [(x1, min x2 lo)] else []) ++
        (if hi < x2 then [(max x1 hi, x2)] else [])) := by
  have hn : normUnion [(lo, hi)] = [(lo, hi)] := rfl
  simp only [diffG, Geom.traceIv, hn, segDiffList, List.foldl_cons, List.foldl_nil,
    List.flatMap_cons, List.flatMap_nil, List.append_nil, segDiff1]

lemma diffClassify_single_line (a b cnt : ℤ) :
    diffClassify (.lineString a b) cnt = [⟨Geom.lineString a b, cnt⟩] := by
  simp [diffClassify, Geom.geomType, py2GtNum]

lemma diffClassify_emptyGC (cnt : ℤ) :
    diffClassify (.collection [] []) cnt = [] := rfl

lemma diffClassify_two_lines (a b c d cnt : ℤ) (h1 : a < b) (h2 : c < d)
    (hac : a ≤ c) (hbc : b ≠ c) :
    diffClassify (.multiLineString [(a, b), (c, d)]) cnt =
      (if TOL < b - a then [⟨Geom.lineString a b, cnt⟩] else []) ++
      (if TOL < d - c then [⟨Geom.lineString c d, cnt⟩] else []) := by
  have hml : linemergeG (.multiLineString [(a, b), (c, d)]) =
      Geom.multiLineString [(a, b), (c, d)] := by
    have hs : sortIv [(a, b), (c, d)] = [(a, b), (c, d)] := by
      simp [sortIv, insIv, hac]
    have hm : mergeTouching [(a, b), (c, d)] = [(a, b), (c, d)] := by
      simp [mergeTouching, mergeTouchingAux, hbc]
    simp only [linemergeG, Geom.members, linemergeList]
    simp only [List.map_cons, List.map_nil, List.flatMap_cons, List.flatMap_nil,
      Geom.traceIv, List.append_nil, List.singleton_append]
    rw [hs, hm, packPieces_two_pos a b c d h1 h2]
  simp only [diffClassify, Geom.geomType, py2GtNum]
  rw [hml]
  simp only [Geom.geomType]
  norm_num
  simp only [Geom.members, List.map_cons, List.map_nil]
  simp [List.filter, Geom.lengthG]
  by_cases hb : TOL < b - a <;> by_cases hd : TOL < d - c <;>
    simp [hb, hd]

lemma surviving_seg (x1 x2 y1 y2 c1 c2 : ℤ) :
    survivingIntersection ⟨.lineString x1 x2, c1⟩ ⟨.lineString y1 y2, c2⟩ =
      if TOL < min x2 (y2 + 1) - max x1 (y1 - 1)
      then [Geom.lineString (max x1 (y1 - 1)) (min x2 (y2 + 1))] else [] := by
  have hb : bufferG (Geom.lineString y1 y2) bTol = .polygon (y1 - 1) (y2 + 1) := rfl
  simp only [survivingIntersection, hb, interG_seg_corridor]
  by_cases h1 : max x1 (y1 - 1) < min x2 (y2 + 1)
  · simp only [h1, if_pos, Geom.geomType, Geom.lengthG]
  · have n5 : ¬ TOL < min x2 (y2 + 1) - max x1 (y1 - 1) := by
      simp only [TOL]; omega
    by_cases h2 : max x1 (y1 - 1) = min x2 (y2 + 1)
    · simp [h1, h2, Geom.geomType, n5]
      decide
    · simp [h1, h2, Geom.geomType, Geom.members, n5, List.isEmpty]

lemma diff_layers_corridor_bound (x1 x2 lo hi c1 c2 : ℤ) (hx : x1 < x2)
    (hlh : lo < hi) :
    totalLen (diff_layers ⟨Geom.lineString x1 x2, c1⟩ ⟨Geom.polygon lo hi, c2⟩) ≤
      (x2 - x1) - (min x2 hi - max x1 lo) ∧
    (diff_layers ⟨Geom.lineString x1 x2, c1⟩ ⟨Geom.polygon lo hi, c2⟩).length ≤ 2 ∧
    ∀ p ∈ diff_layers ⟨Geom.lineString x1 x2, c1⟩ ⟨Geom.polygon lo hi, c2⟩,
      isSegAP p = true := by
  simp only [diff_layers]
  rw [diffG_seg_corridor]
  by_cases hA : x1 < lo <;> by_cases hB : hi < x2
  · -- two remainder pieces [(x1, lo), (hi, x2)]
    have e1 : min x2 lo = lo := by omega
    have e2 : max x1 hi = hi := by omega
    have emin : min x2 hi = hi := by omega
    have emax : max x1 lo = lo := by omega
    rw [if_pos hA, if_pos hB, e1, e2, List.singleton_append,
      packPieces_two_pos x1 lo hi x2 hA hB,
      diffClassify_two_lines x1 lo hi x2 c1 hA hB (by omega) (by omega)]
    refine ⟨?_, ?_, ?_⟩
    · by_cases k1 : TOL < lo - x1 <;> by_cases k2 : TOL < x2 - hi <;>
        simp [k1, k2, totalLen, lenAP, Geom.lengthG, emin, emax] <;> omega
    · by_cases k1 : TOL < lo - x1 <;> by_cases k2 : TOL < x2 - hi <;>
        simp [k1, k2]
    · intro p hp
      rcases List.mem_append.mp hp with hp1 | hp1 <;> split_ifs at hp1 <;>
        simp at hp1 <;> rw [hp1] <;> simp [isSegAP] <;> omega
  · -- one left remainder piece [(x1, min x2 lo)]
    have e3 : x1 < min x2 lo := by omega
    have n1 : ¬ x1 = min x2 lo := by omega
    have emin : min x2 hi = x2 := by omega
    have emax : max x1 lo = lo := by omega
    rw [if_pos hA, if_neg hB, List.append_nil, packPieces_single, if_neg n1,
      if_pos e3, diffClassify_single_line]
    refine ⟨?_, by simp, ?_⟩
    · simp only [totalLen, List.map_cons, List.map_nil, List.sum_cons,
        List.sum_nil, lenAP, Geom.lengthG, emin, emax]
      omega
    · intro p hp
      simp only [List.mem_singleton] at hp
      rw [hp]
      simp only [isSegAP]
      simp [e3]
  · -- one right remainder piece [(max x1 hi, x2)]
    have e3 : max x1 hi < x2 := by omega
    have n1 : ¬ max x1 hi = x2 := by omega
    have emin : min x2 hi = hi := by omega
    have emax : max x1 lo = x1 := by omega
    rw [if_neg hA, if_pos hB, List.nil_append, packPieces_single, if_neg n1,
      if_pos e3, diffClassify_single_line]
    refine ⟨?_, by simp, ?_⟩
    · simp only [totalLen, List.map_cons, List.map_nil, List.sum_cons,
        List.sum_nil, lenAP, Geom.lengthG, emin, emax]
      omega
    · intro p hp
      simp only [List.mem_singleton] at hp
      rw [hp]
      simp only [isSegAP]
      simp [e3]
  · -- corridor covers the segment: no remainder
    have emin : min x2 hi = x2 := by omega
    have emax : max x1 lo = x1 := by omega
    rw [if_neg hA, if_neg hB, List.append_nil, packPieces_nil, diffClassify_emptyGC]
    refine ⟨?_, by simp, by simp⟩
    simp only [totalLen, List.map_nil, List.sum_nil, emin, emax]
    omega

lemma merge_of_fst_empty (a b : AnnotatedPolyline)
    (h : (merge_layers a b).1 = []) : merge_layers a b = ([], [a, b]) := by
  by_cases hs : (survivingIntersection a b).isEmpty
  · simp [merge_layers, hs]
  · exfalso
    have : (merge_layers a b).1 = (survivingIntersection a b).map
        (fun g => (⟨g, a.count + b.count⟩ : AnnotatedPolyline)) := by
      simp [merge_layers, hs]
    rw [this] at h
    cases hc : survivingIntersection a b with
    | nil => rw [hc] at hs; exact hs rfl
    | cons g t => rw [hc] at h; exact absurd h (by simp)

lemma merge_seg (x1 x2 y1 y2 c1 c2 : ℤ)
    (h : TOL < min x2 (y2 + 1) - max x1 (y1 - 1)) :
    merge_layers ⟨Geom.lineString x1 x2, c1⟩ ⟨Geom.lineString y1 y2, c2⟩ =
      ([⟨Geom.lineString (max x1 (y1 - 1)) (min x2 (y2 + 1)), c1 + c2⟩],
       diff_layers ⟨Geom.lineString x1 x2, c1⟩ ⟨Geom.polygon (y1 - 1) (y2 + 1), c2⟩ ++
       diff_layers ⟨Geom.lineString y1 y2, c2⟩ ⟨Geom.polygon (x1 - 1) (x2 + 1), c2⟩) := by
  have hb2 : bufferG (Geom.lineString y1 y2) bTol = .polygon (y1 - 1) (y2 + 1) := rfl
  have hb1 : bufferG (Geom.lineString x1 x2) bTol = .polygon (x1 - 1) (x2 + 1) := rfl
  simp only [merge_layers, surviving_seg, h, if_pos, List.isEmpty_cons,
    Bool.false_eq_true, if_false, List.map_cons, List.map_nil, hb1, hb2]

lemma merge_fst_of_seg (x1 x2 y1 y2 c1 c2 : ℤ)
    (hne : (merge_layers ⟨Geom.lineString x1 x2, c1⟩ ⟨Geom.lineString y1 y2, c2⟩).1 ≠ []) :
    TOL < min x2 (y2 + 1) - max x1 (y1 - 1) := by
  by_contra hcond
  apply hne
  have hs : survivingIntersection ⟨Geom.lineString x1 x2, c1⟩
      ⟨Geom.lineString y1 y2, c2⟩ = [] := by
    rw [surviving_seg, if_neg hcond]
  simp [merge_layers, hs]

lemma merge_spend (cs ss : AnnotatedPolyline) (hc : isSegAP cs = true)
    (hs : isSegAP ss = true) (hne : (merge_layers cs ss).1 ≠ []) :
    totalLen ((merge_layers cs ss).1 ++ (merge_layers cs ss).2) ≤
      lenAP cs + lenAP ss - 3 ∧
    ((merge_layers cs ss).1 ++ (merge_layers cs ss).2).length ≤ 5 ∧
    ∀ p ∈ (merge_layers cs ss).1 ++ (merge_layers cs ss).2, isSegAP p = true := by
  obtain ⟨x1, x2, hx, hcl⟩ := (isSegAP_iff cs).mp hc
  obtain ⟨y1, y2, hy, hsl⟩ := (isSegAP_iff ss).mp hs
  obtain ⟨gc, cc⟩ := cs
  obtain ⟨gs, sc⟩ := ss
  simp only at hcl hsl
  subst hcl hsl
  have hcond := merge_fst_of_seg x1 x2 y1 y2 cc sc hne
  rw [merge_seg x1 x2 y1 y2 cc sc hcond]
  have hD1 := diff_layers_corridor_bound x1 x2 (y1 - 1) (y2 + 1) cc sc hx (by omega)
  have hD2 := diff_layers_corridor_bound y1 y2 (x1 - 1) (x2 + 1) sc sc hy (by omega)
  have hTOL : TOL = 5 := rfl
  refine ⟨?_, ?_, ?_⟩
  · rw [List.singleton_append, totalLen_cons, totalLen_append]
    have b1 := hD1.1
    have b2 := hD2.1
    simp only [lenAP, Geom.lengthG] at b1 b2 ⊢
    rw [hTOL] at hcond
    omega
  · rw [List.singleton_append, List.length_cons, List.length_append]
    have b1 := hD1.2.1
    have b2 := hD2.2.1
    omega
  · intro p hp
    rw [List.singleton_append] at hp
    rcases List.mem_cons.mp hp with rfl | hp1
    · simp only [isSegAP]
      rw [hTOL] at hcond
      simp
      omega
    · rcases List.mem_append.mp hp1 with hp2 | hp2
      · exact hD1.2.2 p hp2
      · exact hD2.2.2 p hp2

lemma scanSeed_measure (c : AnnotatedPolyline) (hc : isSegAP c = true) :
    ∀ rest : List AnnotatedPolyline, (∀ x ∈ rest, isSegAP x = true) →
      (∀ p ∈ (scanSeed c rest).2, isSegAP p = true) ∧
      ((scanSeed c rest).1 = false → (scanSeed c rest).2 = rest) ∧
      ((scanSeed c rest).1 = true →
        totalLen (scanSeed c rest).2 ≤ totalLen rest + lenAP c - 3 ∧
        (scanSeed c rest).2.length ≤ rest.length + 4) := by
  intro rest
  induction rest with
  | nil =>
      intro _
      refine ⟨by simp [scanSeed], fun _ => rfl, fun habs => by simp [scanSeed] at habs⟩
  | cons s r ih =>
      intro h
      have hsWF : isSegAP s = true := h s (List.mem_cons_self s r)
      have hrWF : ∀ x ∈ r, isSegAP x = true :=
        fun x hx => h x (List.mem_cons_of_mem s hx)
      have ihr := ih hrWF
      rw [scanSeed]
      by_cases hm : (merge_layers c s).1.isEmpty
      · simp only [hm, if_pos]
        refine ⟨?_, ?_, ?_⟩
        · intro p hp
          rcases List.mem_cons.mp hp with rfl | hp1
          · exact hsWF
          · exact ihr.1 p hp1
        · intro hf
          rw [ihr.2.1 hf]
        · intro hf
          obtain ⟨hlen, hsize⟩ := ihr.2.2 hf
          constructor
          · rw [totalLen_cons, totalLen_cons]
            omega
          · simp only [List.length_cons]
            omega
      · have hne : (merge_layers c s).1 ≠ [] := by
          cases hml : (merge_layers c s).1 with
          | nil => rw [hml] at hm; exact absurd rfl hm
          | cons a t => simp
        obtain ⟨hlen, hsize, hWF⟩ := merge_spend c s hc hsWF hne
        simp only [hm, Bool.false_eq_true, if_false]
        refine ⟨?_, ?_, ?_⟩
        · intro p hp
          rcases List.mem_append.mp hp with hp1 | hp1
          · exact hWF p hp1
          · exact hrWF p hp1
        · intro habs
          simp at habs
        · intro _
          constructor
          · rw [totalLen_append, totalLen_cons]
            omega
          · rw [List.length_append, List.length_cons]
            omega

lemma reconcileLoop_isSome :
    ∀ (n : ℕ) (seed unique : List AnnotatedPolyline),
      (∀ p ∈ seed, isSegAP p = true) → measureL seed ≤ n →
      (reconcileLoop n seed unique).isSome = true := by
  intro n
  induction n with
  | zero =>
      intro seed unique h hm
      cases seed with
      | nil => simp [reconcileLoop]
      | cons c rest =>
          exfalso
          simp only [measureL, List.length_cons] at hm
          omega
  | succ n ih =>
      intro seed unique h hm
      cases seed with
      | nil => simp [reconcileLoop]
      | cons c rest =>
          have hc : isSegAP c = true := h c (List.mem_cons_self c rest)
          have hrest : ∀ x ∈ rest, isSegAP x = true :=
            fun x hx => h x (List.mem_cons_of_mem c hx)
          have scan := scanSeed_measure c hc rest hrest
          have hrestlen : 0 ≤ totalLen rest := totalLen_nonneg rest hrest
          have hscanlen : 0 ≤ totalLen (scanSeed c rest).2 :=
            totalLen_nonneg _ scan.1
          have hclen : 0 < lenAP c := lenAP_pos c hc
          rw [reconcileLoop]
          simp only [List.isEmpty_cons, Bool.false_eq_true, if_false]
          show (reconcileLoop n (loopIter (c :: rest) unique).1
            (loopIter (c :: rest) unique).2).isSome = true
          simp only [loopIter]
          by_cases hf : (scanSeed c rest).1
          · simp only [hf, if_pos]
            obtain ⟨hlen, hsize⟩ := scan.2.2 hf
            apply ih _ unique scan.1
            simp only [measureL, totalLen_cons, List.length_cons] at hm ⊢
            omega
          · simp only [hf, Bool.false_eq_true, if_false]
            rw [scan.2.1 (by simpa using hf)]
            apply ih _ (unique ++ [c]) hrest
            simp only [measureL, totalLen_cons, List.length_cons] at hm ⊢
            omega

/-- C7.  The reconciliation worklist loop terminates on every finite list
of candidate polylines: some finite fuel `n` (the measure
`2 * totalLen + length` suffices) makes the fuelled loop return its
accumulator, because a no-match round moves the probe to the accumulator
and shrinks the worklist by one, while a successful merge adds at most
three items but shortens the total retained length by at least
`TOL - 2 * bTol = 3`. -/
theorem reconcile_worklist_terminates (candidates : List AnnotatedPolyline)
    (h : ∀ p ∈ candidates, isSegAP p = true) :
    ∃ n : ℕ, (reconcileLoop n candidates []).isSome = true :=
  ⟨measureL candidates, reconcileLoop_isSome (measureL candidates) candidates [] h le_rfl⟩

/-- Witness for C7 on the Scenario-B candidate list. -/
theorem reconcile_worklist_terminates_witness :
    (∀ p ∈ [(⟨Geom.lineString 0 10, 2⟩ : AnnotatedPolyline),
        ⟨Geom.lineString 5 15, 4⟩], isSegAP p = true) ∧
    ∃ n : ℕ, (reconcileLoop n
      [(⟨Geom.lineString 0 10, 2⟩ : AnnotatedPolyline),
        ⟨Geom.lineString 5 15, 4⟩] []).isSome = true :=
  ⟨by decide, reconcile_worklist_terminates _ (by decide)⟩
